import Mathlib

/-!
Verification development for the rjlox tree-walking interpreter.

This file gives a shallow embedding of the interpreter's data model and of the
operations under scrutiny, translated from the Rust sources:
`token.rs`, `expr.rs`, `stmt.rs`, `object.rs`, `error.rs`, `environment.rs`,
`scanner.rs`, `parser.rs`, `resolver.rs`, `callable.rs`, `interpreter.rs`.

Modelling conventions:
* `Rc<Environment>` with interior mutability becomes an address (`Nat`) into an
  explicit heap of frames; `Environment::new` is an allocation appending a frame.
* Machine `f32` payloads of `Literal::Num` are modelled as exact rationals `ℚ`
  in the interpreter development: none of the interpreter-level properties
  proved below depend on floating-point rounding.  The bit-level behaviour of
  `Literal` equality and hashing (`token.rs`) is modelled separately by `F32`
  with explicit IEEE-754 single-precision bit patterns.
* Possible non-termination (`while`, recursion through calls) is handled by a
  fuel parameter; exhausting fuel yields the marker error `LoxError.diverge`,
  which corresponds to no source-level error but to a run that is still going.
* Output effects (`println!`) are recorded in the state.
* `HashMap`s are modelled as association lists with insert-or-overwrite.
-/

namespace RJLox

/-- Model of `TokenType` (token.rs). -/
inductive TokenType
  | leftParen | rightParen | leftBrace | rightBrace
  | comma | dot | minus | plus | semicolon | slash | star
  | bang | bangEqual | equal | equalEqual
  | greater | greaterEqual | less | lessEqual
  | identifier | stringT | number
  | andK | classK | elseK | falseK | funK | forK | ifK | nilK
  | orK | printK | returnK | superK | thisK | trueK | varK | whileK
  | eof
deriving DecidableEq, Repr

/-- Model of `Literal` (token.rs) as used by the scanner, parser and
interpreter.  The `f32` payload of `Num` is modelled as an exact rational. -/
inductive Lit
  | str (s : String)
  | num (v : ℚ)
  | bool (b : Bool)
  | nil
deriving DecidableEq, Repr

/-- Model of `Token` (token.rs). -/
structure Token where
  tokenType : TokenType
  lexeme : String
  literal : Lit
  line : Nat
deriving DecidableEq, Repr

/-- Model of `Expr` (expr.rs). -/
inductive Expr
  | assign (name : Token) (value : Expr)
  | binary (left : Expr) (op : Token) (right : Expr)
  | call (callee : Expr) (paren : Token) (args : List Expr)
  | group (e : Expr)
  | lit (value : Lit)
  | unary (op : Token) (right : Expr)
  | varE (name : Token)
  | logic (left : Expr) (op : Token) (right : Expr)

mutual

/-- Structural equality on `Expr`, modelling the derived `PartialEq`/`Eq`
(and the agreeing `Hash`) that keys the interpreter's `locals` map. -/
def Expr.beq : Expr → Expr → Bool
  | .assign n v, .assign n' v' => n == n' && Expr.beq v v'
  | .binary l o r, .binary l' o' r' => Expr.beq l l' && o == o' && Expr.beq r r'
  | .call c p as, .call c' p' as' => Expr.beq c c' && p == p' && Expr.beqList as as'
  | .group e, .group e' => Expr.beq e e'
  | .lit v, .lit v' => v == v'
  | .unary o r, .unary o' r' => o == o' && Expr.beq r r'
  | .varE n, .varE n' => n == n'
  | .logic l o r, .logic l' o' r' => Expr.beq l l' && o == o' && Expr.beq r r'
  | _, _ => false

/-- Componentwise `Expr.beq` on argument lists. -/
def Expr.beqList : List Expr → List Expr → Bool
  | [], [] => true
  | a :: as, b :: bs => Expr.beq a b && Expr.beqList as bs
  | _, _ => false

end

instance : BEq Expr := ⟨Expr.beq⟩

/-- Model of `Stmt` (stmt.rs). -/
inductive Stmt
  | expr (e : Expr)
  | print (e : Expr)
  | ret (keyword : Token) (value : Expr)
  | varS (name : Token) (init : Expr)
  | block (stmts : List Stmt)
  | funS (name : Token) (params : List Token) (body : List Stmt)
  | ifS (cond : Expr) (thenB : Stmt) (elseB : Option Stmt)
  | whileS (cond : Expr) (body : Stmt)

/-- Heap address of an environment (`Rc<Environment>` in environment.rs). -/
abbrev Addr := Nat

/-- Model of `Function` (callable.rs): the captured closure is an address. -/
structure LoxFunction where
  name : Token
  params : List Token
  body : List Stmt
  closure : Addr

/-- Model of `Callable` (callable.rs). -/
inductive Callable
  | clock
  | func (f : LoxFunction)

/-- Model of `Object` (object.rs). -/
inductive Object
  | lit (l : Lit)
  | callable (c : Callable)

/-- Model of `Error` (error.rs), with an extra marker `diverge` produced only
when the fuel of the fueled evaluator runs out (modelling a still-running
computation, not any source error). -/
inductive LoxError
  | parseError (msg : String)
  | runtimeError (tok : Token) (msg : String)
  | ret (value : Object)
  | resolveError (tok : Token) (msg : String)
  | diverge

/-- `LoxCallable::arity` (callable.rs). -/
def Callable.arity : Callable → Nat
  | .clock => 0
  | .func f => f.params.length

/-! ### Environments (environment.rs)

An `Environment` is a frame: its `HashMap` of values and an optional
enclosing address.  The `Rc`-shared, `RefCell`-mutable environments of the
source become a heap (list of frames) indexed by address; `Environment::new`
appends a fresh frame. -/

/-- Insert-or-overwrite on an association list, modelling `HashMap::insert`. -/
def insertVal (m : List (String × Object)) (k : String) (v : Object) :
    List (String × Object) :=
  match m with
  | [] => [(k, v)]
  | (k', v') :: rest =>
    if k' = k then (k, v) :: rest else (k', v') :: insertVal rest k v

/-- Lookup on an association list, modelling `HashMap::get`. -/
def lookupVal (m : List (String × Object)) (k : String) : Option Object :=
  match m with
  | [] => none
  | (k', v') :: rest => if k' = k then some v' else lookupVal rest k

/-- One environment frame: enclosing pointer plus name-to-value map. -/
structure Frame where
  enclosing : Option Addr
  values : List (String × Object)

abbrev Heap := List Frame

/-- Apply `f` to the frame at address `a`. -/
def heapModify (h : Heap) (a : Addr) (f : Frame → Frame) : Heap :=
  match h, a with
  | [], _ => []
  | fr :: rest, 0 => f fr :: rest
  | fr :: rest, Nat.succ a => fr :: heapModify rest a f

/-- Read the frame at address `a`. -/
def heapGet (h : Heap) (a : Addr) : Option Frame := h.get? a

/-- `Environment::define`: unconditional insert in the frame at `a`. -/
def heapDefine (h : Heap) (a : Addr) (name : String) (v : Object) : Heap :=
  heapModify h a (fun fr => { fr with values := insertVal fr.values name v })

/-- `Environment::get`, walking the enclosing chain.  The walk is bounded by
`gas`; the interpreter only builds acyclic heaps whose enclosing pointers
strictly decrease, so `h.length + 1` steps always suffice there. -/
def envGetAux (gas : Nat) (h : Heap) (a : Addr) (name : Token) :
    Except LoxError Object :=
  match gas with
  | 0 => .error .diverge
  | Nat.succ gas =>
    match heapGet h a with
    | none => .error .diverge
    | some fr =>
      match lookupVal fr.values name.lexeme with
      | some v => .ok v
      | none =>
        match fr.enclosing with
        | some e => envGetAux gas h e name
        | none =>
          .error (.runtimeError name
            ("Undefined variable '" ++ name.lexeme ++ "'."))

/-- `Environment::get` from address `a`. -/
def envGet (h : Heap) (a : Addr) (name : Token) : Except LoxError Object :=
  envGetAux (h.length + 1) h a name

/-- `Environment::assign`, walking the enclosing chain and overwriting the
nearest binding; `RuntimeError` if no environment defines the name. -/
def envAssignAux (gas : Nat) (h : Heap) (a : Addr) (name : Token) (v : Object) :
    Except LoxError Heap :=
  match gas with
  | 0 => .error .diverge
  | Nat.succ gas =>
    match heapGet h a with
    | none => .error .diverge
    | some fr =>
      match lookupVal fr.values name.lexeme with
      | some _ => .ok (heapDefine h a name.lexeme v)
      | none =>
        match fr.enclosing with
        | some e => envAssignAux gas h e name v
        | none =>
          .error (.runtimeError name
            ("Undefined variable '" ++ name.lexeme ++ "'."))

/-- `Environment::assign` from address `a`. -/
def envAssign (h : Heap) (a : Addr) (name : Token) (v : Object) :
    Except LoxError Heap :=
  envAssignAux (h.length + 1) h a name v

/-- Walk exactly `k` enclosing steps from `a`. -/
def ancestor (h : Heap) (a : Addr) : Nat → Option Addr
  | 0 => some a
  | Nat.succ k =>
    match heapGet h a with
    | some fr =>
      match fr.enclosing with
      | some e => ancestor h e k
      | none => none
    | none => none

/-- Modelled from the spec: `Environment::get_at` is called from
interpreter.rs but its definition is not among the repository's files; per
spec §4.4 it walks exactly `k` enclosing steps and reads directly from that
environment's own map, returning `None` when that read (or the walk) fails so
the caller can fall back to `get`. -/
def envGetAt (h : Heap) (a : Addr) (k : Nat) (name : String) : Option Object :=
  match ancestor h a k with
  | some e =>
    match heapGet h e with
    | some fr => lookupVal fr.values name
    | none => none
  | none => none

/-- Modelled from the spec: `Environment::assign_at` is called from
interpreter.rs but its definition is not among the repository's files; per
spec §4.4 it is the write symmetric to `get_at`: walk exactly `k` steps and
write into that environment's own map, `None` when the walk fails so the
caller can fall back to `assign`. -/
def envAssignAt (h : Heap) (a : Addr) (k : Nat) (name : String) (v : Object) :
    Option Heap :=
  match ancestor h a k with
  | some e =>
    match heapGet h e with
    | some _ => some (heapDefine h e name v)
    | none => none
  | none => none

/-! ### Interpreter state (interpreter.rs) -/

/-- Lookup in the `locals` resolution table (`HashMap<Expr, usize>`),
keyed by structural expression equality. -/
def lookupLocal (ls : List (Expr × Nat)) (e : Expr) : Option Nat :=
  match ls with
  | [] => none
  | (k, d) :: rest => if Expr.beq k e then some d else lookupLocal rest e

/-- Insert-or-overwrite in the `locals` resolution table
(`Interpreter::resolve` does `self.locals.insert(expr, depth)`). -/
def insertLocal (ls : List (Expr × Nat)) (e : Expr) (d : Nat) :
    List (Expr × Nat) :=
  match ls with
  | [] => [(e, d)]
  | (k, d') :: rest =>
    if Expr.beq k e then (e, d) :: rest else (k, d') :: insertLocal rest e d

/-- The interpreter's mutable state: the heap of environment frames, the
active environment `env`, the `globals` address, the resolution table
`locals`, the values printed so far, the runtime errors printed by
`Interpreter::interpret`, and the wall clock read by `clock()`. -/
structure IState where
  heap : Heap
  env : Addr
  globals : Addr
  locals : List (Expr × Nat)
  output : List Object
  errlog : List LoxError
  clockNow : ℚ

/-- `Interpreter::new`: one global frame binding `clock`. -/
def initState : IState :=
  { heap := [⟨none, [("clock", .callable .clock)]⟩]
    env := 0
    globals := 0
    locals := []
    output := []
    errlog := []
    clockNow := 0 }

/-- `Interpreter::is_truthy`. -/
def isTruthy : Object → Bool
  | .lit .nil => false
  | .lit (.bool b) => b
  | .lit _ => true
  | .callable _ => true

/-- `Interpreter::lookup_variable`. -/
def lookupVariable (st : IState) (name : Token) (e : Expr) :
    Except LoxError Object :=
  match lookupLocal st.locals e with
  | some d =>
    match envGetAt st.heap st.env d name.lexeme with
    | some x => .ok x
    | none => envGet st.heap st.env name
  | none => envGet st.heap st.globals name

/-- The pure core of `visit_binary_expr` (interpreter.rs), dispatching on the
two evaluated operands and the operator token. -/
def visitBinary (left right : Object) (op : Token) : Except LoxError Object :=
  match left, right with
  | .lit (.num lv), .lit (.num rv) =>
    match op.tokenType with
    | .plus => .ok (.lit (.num (lv + rv)))
    | .minus => .ok (.lit (.num (lv - rv)))
    | .slash => .ok (.lit (.num (lv / rv)))
    | .star => .ok (.lit (.num (lv * rv)))
    | .greater => .ok (.lit (.bool (decide (lv > rv))))
    | .greaterEqual => .ok (.lit (.bool (decide (lv ≥ rv))))
    | .less => .ok (.lit (.bool (decide (lv < rv))))
    | .lessEqual => .ok (.lit (.bool (decide (lv ≤ rv))))
    | .equalEqual => .ok (.lit (.bool (decide (lv = rv))))
    | .bangEqual => .ok (.lit (.bool (decide (lv ≠ rv))))
    | _ => .ok (.lit .nil)
  | .lit (.str lv), .lit (.str rv) =>
    match op.tokenType with
    | .plus => .ok (.lit (.str (lv ++ rv)))
    | .equalEqual => .ok (.lit (.bool (lv == rv)))
    | .bangEqual => .ok (.lit (.bool (lv != rv)))
    | _ => .ok (.lit .nil)
  | _, _ =>
    match op.tokenType with
    | .plus =>
      .error (.runtimeError op "Operands must be two numbers or two strings.")
    | _ => .error (.runtimeError op "Operands must be numbers.")

/-- The pure core of `visit_unary_expr` (interpreter.rs). -/
def visitUnary (op : Token) (right : Object) : Except LoxError Object :=
  match op.tokenType with
  | .minus =>
    match right with
    | .lit (.num x) => .ok (.lit (.num (-x)))
    | _ => .error (.runtimeError op "Operand must be a number.")
  | .bang => .ok (.lit (.bool (!isTruthy right)))
  | _ => .error (.runtimeError op "Operand must be a number.")

/-- A task for the fueled evaluator: evaluate an expression, an argument
list, execute a statement, the statement loop of `execute_block`,
`execute_block` itself (after its frame has been allocated), dispatch a
call (`LoxCallable::call`), or the `Interpreter::interpret` driver. -/
inductive Task
  | eval (e : Expr)
  | evalArgs (es : List Expr)
  | exec (s : Stmt)
  | execSeq (ss : List Stmt)
  | execBlock (ss : List Stmt) (envNew : Addr)
  | callC (c : Callable) (args : List Object)
  | interpret (ss : List Stmt)

/-- Result of a task. -/
inductive RRes
  | unit
  | obj (o : Object)
  | objs (os : List Object)

/-- Sequence a task result that must be an object into a continuation;
other `ok` shapes cannot arise from `eval` tasks. -/
def bindObj (r : Except LoxError RRes × IState)
    (f : Object → IState → Except LoxError RRes × IState) :
    Except LoxError RRes × IState :=
  match r with
  | (.ok (.obj o), st) => f o st
  | (.ok _, st) => (.error .diverge, st)
  | (.error e, st) => (.error e, st)

/-- Bind the parameters to the argument values in a fresh map, modelling the
`define` loop in `Callable::call`.  (The source indexes by argument position
and unwraps the parameter, so it agrees with `zip` whenever there are at
least as many parameters as arguments, and panics otherwise; the caller,
`visit_call_expr`, always supplies exactly `arity` arguments.) -/
def bindParams (params : List Token) (args : List Object) :
    List (String × Object) :=
  (params.zip args).foldl (fun m pa => insertVal m pa.1.lexeme pa.2) []

/-- The fueled evaluator, a direct translation of interpreter.rs and
`Callable::call` (callable.rs).  Each recursive call spends one unit of
fuel; running out yields `LoxError.diverge`. -/
def run : Nat → IState → Task → Except LoxError RRes × IState
  | 0, st, _ => (.error .diverge, st)
  | Nat.succ fuel, st, task =>
    match task with
    | .eval e =>
      match e with
      | .lit v => (.ok (.obj (.lit v)), st)
      | .group e1 => run fuel st (.eval e1)
      | .binary l op r =>
        bindObj (run fuel st (.eval l)) fun lv st1 =>
          bindObj (run fuel st1 (.eval r)) fun rv st2 =>
            ((visitBinary lv rv op).map .obj, st2)
      | .unary op r =>
        bindObj (run fuel st (.eval r)) fun rv st1 =>
          ((visitUnary op rv).map .obj, st1)
      | .varE name =>
        ((lookupVariable st name (.varE name)).map .obj, st)
      | .assign name value =>
        bindObj (run fuel st (.eval value)) fun v st1 =>
          match lookupLocal st1.locals value with
          | some d =>
            match envAssignAt st1.heap st1.env d name.lexeme v with
            | some h' => (.ok (.obj v), { st1 with heap := h' })
            | none =>
              match envAssign st1.heap st1.env name v with
              | .ok h' => (.ok (.obj v), { st1 with heap := h' })
              | .error e2 => (.error e2, st1)
          | none =>
            match envAssign st1.heap st1.globals name v with
            | .ok h' => (.ok (.obj v), { st1 with heap := h' })
            | .error e2 => (.error e2, st1)
      | .logic l op r =>
        bindObj (run fuel st (.eval l)) fun lv st1 =>
          if op.tokenType = .orK then
            if isTruthy lv then (.ok (.obj lv), st1)
            else run fuel st1 (.eval r)
          else
            if !isTruthy lv then (.ok (.obj lv), st1)
            else run fuel st1 (.eval r)
      | .call callee paren args =>
        bindObj (run fuel st (.eval callee)) fun cv st1 =>
          match run fuel st1 (.evalArgs args) with
          | (.ok (.objs avs), st2) =>
            match cv with
            | .callable c =>
              if avs.length ≠ c.arity then
                (.error (.runtimeError paren
                  ("Expected " ++ toString c.arity ++ " arguments but got "
                    ++ toString avs.length ++ ".")), st2)
              else run fuel st2 (.callC c avs)
            | _ =>
              (.error (.runtimeError paren
                "Can only call functions and classes."), st2)
          | (.ok _, st2) => (.error .diverge, st2)
          | (.error e2, st2) => (.error e2, st2)
    | .evalArgs es =>
      match es with
      | [] => (.ok (.objs []), st)
      | e :: rest =>
        bindObj (run fuel st (.eval e)) fun v st1 =>
          match run fuel st1 (.evalArgs rest) with
          | (.ok (.objs vs), st2) => (.ok (.objs (v :: vs)), st2)
          | (.ok _, st2) => (.error .diverge, st2)
          | (.error e2, st2) => (.error e2, st2)
    | .exec s =>
      match s with
      | .expr e =>
        bindObj (run fuel st (.eval e)) fun _ st1 => (.ok .unit, st1)
      | .print e =>
        bindObj (run fuel st (.eval e)) fun v st1 =>
          (.ok .unit, { st1 with output := st1.output ++ [v] })
      | .varS name init =>
        bindObj (run fuel st (.eval init)) fun v st1 =>
          (.ok .unit,
            { st1 with heap := heapDefine st1.heap st1.env name.lexeme v })
      | .block ss =>
        run fuel
          { st with heap := st.heap ++ [⟨some st.env, []⟩] }
          (.execBlock ss st.heap.length)
      | .ifS c t e =>
        bindObj (run fuel st (.eval c)) fun cv st1 =>
          match (if isTruthy cv then run fuel st1 (.exec t)
                 else (.ok .unit, st1)) with
          | (.ok _, st2) =>
            match e with
            | some eb =>
              match run fuel st2 (.exec eb) with
              | (.ok _, st3) => (.ok .unit, st3)
              | r => r
            | none => (.ok .unit, st2)
          | r => r
      | .whileS c b =>
        bindObj (run fuel st (.eval c)) fun cv st1 =>
          if isTruthy cv then
            match run fuel st1 (.exec b) with
            | (.ok _, st2) => run fuel st2 (.exec (.whileS c b))
            | r => r
          else (.ok .unit, st1)
      | .funS name params body =>
        (.ok .unit,
          { st with
            heap := heapDefine st.heap st.env name.lexeme
              (.callable (.func ⟨name, params, body, st.env⟩)) })
      | .ret _ value =>
        match value with
        | .lit Lit.nil => (.error (.ret (.lit .nil)), st)
        | _ =>
          bindObj (run fuel st (.eval value)) fun v st1 =>
            (.error (.ret v), st1)
    | .execSeq ss =>
      match ss with
      | [] => (.ok .unit, st)
      | s :: rest =>
        match run fuel st (.exec s) with
        | (.ok _, st1) => run fuel st1 (.execSeq rest)
        | r => r
    | .execBlock ss envNew =>
      match run fuel { st with env := envNew } (.execSeq ss) with
      | (.ok _, st1) => (.ok .unit, { st1 with env := st.env })
      | (.error e, st1) => (.error e, { st1 with env := st.env })
    | .callC c args =>
      match c with
      | .clock => (.ok (.obj (.lit (.num st.clockNow))), st)
      | .func f =>
        match run fuel
            { st with heap := st.heap ++ [⟨some f.closure, bindParams f.params args⟩] }
            (.execBlock f.body st.heap.length) with
        | (.ok _, st1) => (.ok (.obj (.lit .nil)), st1)
        | (.error (.ret o), st1) => (.ok (.obj o), st1)
        | (.error e, st1) => (.error e, st1)
    | .interpret ss =>
      match ss with
      | [] => (.ok .unit, st)
      | s :: rest =>
        match run fuel st (.exec s) with
        | (.ok _, st1) => run fuel st1 (.interpret rest)
        | (.error e, st1) =>
          run fuel { st1 with errlog := st1.errlog ++ [e] } (.interpret rest)

/-! ### Resolver (resolver.rs)

The scope stack is a list of association maps from names to the
initialised flag; index 0 is the first scope pushed (the outermost local
scope) and the last element is the top of the `Vec` (the innermost scope).
The resolver's side effect on the interpreter's `locals` table is modelled
in `RState.locals`. -/

/-- One resolver scope: `HashMap<String, bool>`. -/
abbrev Scope := List (String × Bool)

/-- Insert-or-overwrite on a scope, modelling `HashMap::insert`. -/
def insertFlag (sc : Scope) (k : String) (b : Bool) : Scope :=
  match sc with
  | [] => [(k, b)]
  | (k', b') :: rest =>
    if k' = k then (k, b) :: rest else (k', b') :: insertFlag rest k b

/-- Lookup on a scope, modelling `HashMap::get`. -/
def lookupFlag (sc : Scope) (k : String) : Option Bool :=
  match sc with
  | [] => none
  | (k', b') :: rest => if k' = k then some b' else lookupFlag rest k

/-- `FunctionType` (resolver.rs). -/
inductive FunctionType
  | NONE
  | FUNCTION
deriving DecidableEq

/-- The resolver's state: the scope stack, the resolution table being
written into the interpreter, and the current function type. -/
structure RState where
  scopes : List Scope
  locals : List (Expr × Nat)
  currentFunction : FunctionType

/-- Apply `f` to the last element of a list (the top of the scope stack). -/
def modifyLast (f : Scope → Scope) : List Scope → List Scope
  | [] => []
  | [sc] => [f sc]
  | sc :: rest => sc :: modifyLast f rest

/-- `Resolver::declare`: nothing at global scope; otherwise error if the top
scope already has the name, else mark it declared-but-uninitialised. -/
def declare (st : RState) (name : Token) : Except LoxError RState :=
  match st.scopes.getLast? with
  | none => .ok st
  | some sc =>
    match lookupFlag sc name.lexeme with
    | some _ =>
      .error (.resolveError name
        "Already a variable with this name in this scope.")
    | none =>
      .ok { st with
        scopes := modifyLast (fun s => insertFlag s name.lexeme false) st.scopes }

/-- `Resolver::define`: mark the name initialised in the top scope. -/
def define (st : RState) (name : Token) : RState :=
  match st.scopes with
  | [] => st
  | _ =>
    { st with
      scopes := modifyLast (fun s => insertFlag s name.lexeme true) st.scopes }

/-- Scan the reversed scope stack (innermost first) for the name; the result
counts the scopes skipped, i.e. `scopes.len() - 1 - nesting_layer` of the
source's `enumerate().rev()` walk. -/
def findDepthRev (scopes : List Scope) (name : String) : Option Nat :=
  match scopes with
  | [] => none
  | sc :: rest =>
    match lookupFlag sc name with
    | some _ => some 0
    | none => (findDepthRev rest name).map Nat.succ

/-- `Resolver::resolve_local`: walk the scopes from innermost to outermost;
the first scope containing the name records `(expr, depth)` in the
interpreter's table; no match records nothing (global). -/
def resolveLocal (st : RState) (e : Expr) (name : Token) : RState :=
  match findDepthRev st.scopes.reverse name.lexeme with
  | some k => { st with locals := insertLocal st.locals e k }
  | none => st

/-- `Resolver::visit_var_expr`: the own-initialiser check reads
`scopes.iter().peekable().peek()`, i.e. the FIRST element of the `Vec` (the
outermost local scope), then resolves the variable. -/
def visitVarResolve (st : RState) (name : Token) :
    Except LoxError RState :=
  match st.scopes.head? with
  | some sc =>
    match lookupFlag sc name.lexeme with
    | some false =>
      .error (.resolveError name
        "Cannot read local variable in its own initializer.")
    | _ => .ok (resolveLocal st (.varE name) name)
  | none => .ok (resolveLocal st (.varE name) name)

/-- A task for the fueled resolver: an expression, a statement, a statement
list, the parameter declare/define loop, or a whole function body
(`Resolver::resolve_function`). -/
inductive RTask
  | rexpr (e : Expr)
  | rexprs (es : List Expr)
  | rstmt (s : Stmt)
  | rstmts (ss : List Stmt)
  | rfun (params : List Token) (body : List Stmt) (ftype : FunctionType)
  | rparams (ps : List Token)

/-- The fueled resolver, a direct translation of resolver.rs. -/
def resolveRun : Nat → RState → RTask → Except LoxError Unit × RState
  | 0, st, _ => (.error .diverge, st)
  | Nat.succ fuel, st, task =>
    match task with
    | .rexpr e =>
      match e with
      | .binary l _ r =>
        match resolveRun fuel st (.rexpr l) with
        | (.ok _, st1) => resolveRun fuel st1 (.rexpr r)
        | r => r
      | .group e1 => resolveRun fuel st (.rexpr e1)
      | .lit _ => (.ok (), st)
      | .unary _ r => resolveRun fuel st (.rexpr r)
      | .varE name =>
        match visitVarResolve st name with
        | .ok st1 => (.ok (), st1)
        | .error e2 => (.error e2, st)
      | .assign name value =>
        match resolveRun fuel st (.rexpr value) with
        | (.ok _, st1) => (.ok (), resolveLocal st1 value name)
        | r => r
      | .logic l _ r =>
        match resolveRun fuel st (.rexpr l) with
        | (.ok _, st1) => resolveRun fuel st1 (.rexpr r)
        | r => r
      | .call callee _ args =>
        match resolveRun fuel st (.rexpr callee) with
        | (.ok _, st1) => resolveRun fuel st1 (.rexprs args)
        | r => r
    | .rexprs es =>
      match es with
      | [] => (.ok (), st)
      | e :: rest =>
        match resolveRun fuel st (.rexpr e) with
        | (.ok _, st1) => resolveRun fuel st1 (.rexprs rest)
        | r => r
    | .rstmt s =>
      match s with
      | .expr e => resolveRun fuel st (.rexpr e)
      | .print e => resolveRun fuel st (.rexpr e)
      | .varS name init =>
        match declare st name with
        | .error e2 => (.error e2, st)
        | .ok st1 =>
          match ((match init with
                  | .lit Lit.nil => (.ok (), st1)
                  | _ => resolveRun fuel st1 (.rexpr init)) :
                 Except LoxError Unit × RState) with
          | (.ok _, st2) => (.ok (), define st2 name)
          | r => r
      | .block ss =>
        match resolveRun fuel
            { st with scopes := st.scopes ++ [[]] } (.rstmts ss) with
        | (.ok _, st1) => (.ok (), { st1 with scopes := st1.scopes.dropLast })
        | r => r
      | .ifS c t e =>
        match resolveRun fuel st (.rexpr c) with
        | (.ok _, st1) =>
          match resolveRun fuel st1 (.rstmt t) with
          | (.ok _, st2) =>
            match e with
            | some eb => resolveRun fuel st2 (.rstmt eb)
            | none => (.ok (), st2)
          | r => r
        | r => r
      | .whileS c b =>
        match resolveRun fuel st (.rexpr c) with
        | (.ok _, st1) => resolveRun fuel st1 (.rstmt b)
        | r => r
      | .funS name params body =>
        match declare st name with
        | .error e2 => (.error e2, st)
        | .ok st1 =>
          resolveRun fuel (define st1 name) (.rfun params body .FUNCTION)
      | .ret keyword value =>
        if st.currentFunction = .NONE then
          (.error (.resolveError keyword "Can't return from top-level code."),
            st)
        else
          match value with
          | .lit Lit.nil => (.ok (), st)
          | _ => resolveRun fuel st (.rexpr value)
    | .rstmts ss =>
      match ss with
      | [] => (.ok (), st)
      | s :: rest =>
        match resolveRun fuel st (.rstmt s) with
        | (.ok _, st1) => resolveRun fuel st1 (.rstmts rest)
        | r => r
    | .rfun params body ftype =>
      let enclosing := st.currentFunction
      match resolveRun fuel
          { st with currentFunction := ftype, scopes := st.scopes ++ [[]] }
          (.rparams params) with
      | (.ok _, st1) =>
        match resolveRun fuel st1 (.rstmts body) with
        | (.ok _, st2) =>
          (.ok (), { st2 with
            scopes := st2.scopes.dropLast, currentFunction := enclosing })
        | r => r
      | r => r
    | .rparams ps =>
      match ps with
      | [] => (.ok (), st)
      | p :: rest =>
        match declare st p with
        | .error e2 => (.error e2, st)
        | .ok st1 => resolveRun fuel (define st1 p) (.rparams rest)

/-- `Resolver::new` followed by `resolve_statements` on a program. -/
def resolveProgram (fuel : Nat) (ss : List Stmt) :
    Except LoxError Unit × RState :=
  resolveRun fuel ⟨[], [], .NONE⟩ (.rstmts ss)

/-! ### Scanner (scanner.rs)

The source is a list of characters indexed by `current`/`start`; errors
reported through `lexer_error` are recorded in the state.  Rust's
`char::is_alphabetic` and `is_ascii_alphanumeric` are modelled by the
corresponding ASCII predicates (the claims below use ASCII sources only),
and the `f32` parse of a numeric lexeme by an exact rational value. -/

/-- The scanner's state (struct `Scanner` plus the error channel). -/
structure SState where
  source : List Char
  tokens : List Token
  start : Nat
  current : Nat
  line : Nat
  errors : List (Nat × String)

/-- `self.source.chars().nth(i)`; out-of-range reads (which would panic in
the source and are guarded by `is_at_end` there) default to `'\x00'`. -/
def charAt (cs : List Char) (i : Nat) : Char := (cs.get? i).getD '\x00'

/-- `Scanner::is_at_end`. -/
def SState.isAtEnd (st : SState) : Bool := st.source.length ≤ st.current

/-- `Scanner::advance`: return the current character and move past it. -/
def SState.advance (st : SState) : Char × SState :=
  (charAt st.source st.current, { st with current := st.current + 1 })

/-- `Scanner::peek`. -/
def SState.peek (st : SState) : Char :=
  if st.isAtEnd then '\n' else charAt st.source st.current

/-- `Scanner::peek_next`. -/
def SState.peekNext (st : SState) : Char :=
  if st.source.length ≤ st.current + 1 then '\x00'
  else charAt st.source (st.current + 1)

/-- `Scanner::match_char`. -/
def SState.matchChar (st : SState) (expected : Char) : Bool × SState :=
  if st.isAtEnd then (false, st)
  else if charAt st.source st.current ≠ expected then (false, st)
  else (true, { st with current := st.current + 1 })

/-- The slice `source[a..b]` as a string. -/
def sliceStr (cs : List Char) (a b : Nat) : String :=
  String.mk ((cs.drop a).take (b - a))

/-- `Scanner::add_token_full`: lexeme is the exact
`source[start..current]` slice. -/
def SState.addTokenFull (st : SState) (tt : TokenType) (lit : Lit) : SState :=
  { st with
    tokens := st.tokens ++ [⟨tt, sliceStr st.source st.start st.current, lit, st.line⟩] }

/-- `Scanner::add_token`. -/
def SState.addToken (st : SState) (tt : TokenType) : SState :=
  st.addTokenFull tt .nil

/-- The `KEYWORDS` table (scanner.rs). -/
def keywordType (s : String) : Option TokenType :=
  if s = "and" then some .andK
  else if s = "class" then some .classK
  else if s = "else" then some .elseK
  else if s = "false" then some .falseK
  else if s = "for" then some .forK
  else if s = "fun" then some .funK
  else if s = "if" then some .ifK
  else if s = "nil" then some .nilK
  else if s = "or" then some .orK
  else if s = "print" then some .printK
  else if s = "return" then some .returnK
  else if s = "super" then some .superK
  else if s = "this" then some .thisK
  else if s = "true" then some .trueK
  else if s = "var" then some .varK
  else if s = "while" then some .whileK
  else none

/-- The integer value of a digit run. -/
def digitsVal (cs : List Char) : Nat :=
  cs.foldl (fun acc c => 10 * acc + (c.toNat - 48)) 0

/-- The exact rational value of a numeric lexeme `[0-9]+(.[0-9]+)?`
(modelling `parse::<f32>` without rounding). -/
def ratOfLexeme (cs : List Char) : ℚ :=
  let intPart := cs.takeWhile (fun c => c ≠ '.')
  match cs.dropWhile (fun c => c ≠ '.') with
  | [] => (digitsVal intPart : ℚ)
  | _ :: frac =>
    (digitsVal intPart : ℚ) + (digitsVal frac : ℚ) / ((10 : ℚ) ^ frac.length)

/-- A task of the fueled scanner: the `scan_tokens` while-loop, and the
inner loops of `scan_token` for comments, strings, numbers (integer and
fractional part) and identifiers. -/
inductive STask
  | scanLoop
  | commentLoop
  | stringLoop
  | numberInt
  | numberFrac
  | identLoop

/-- The fueled scanner, a direct translation of scanner.rs; each loop
iteration spends one unit of fuel.  Note the special arm for `'o'` in
`scan_token`, which emits an `OR` token whenever the next character is
`'r'`. -/
def scanRun : Nat → SState → STask → SState
  | 0, st, _ => st
  | Nat.succ fuel, st, task =>
    match task with
    | .scanLoop =>
      if st.isAtEnd then st
      else
        let st0 := { st with start := st.current }
        let (c, st1) := st0.advance
        match c with
        | '(' => scanRun fuel (st1.addToken .leftParen) .scanLoop
        | ')' => scanRun fuel (st1.addToken .rightParen) .scanLoop
        | '{' => scanRun fuel (st1.addToken .leftBrace) .scanLoop
        | '}' => scanRun fuel (st1.addToken .rightBrace) .scanLoop
        | ',' => scanRun fuel (st1.addToken .comma) .scanLoop
        | '.' => scanRun fuel (st1.addToken .dot) .scanLoop
        | '-' => scanRun fuel (st1.addToken .minus) .scanLoop
        | '+' => scanRun fuel (st1.addToken .plus) .scanLoop
        | ';' => scanRun fuel (st1.addToken .semicolon) .scanLoop
        | '*' => scanRun fuel (st1.addToken .star) .scanLoop
        | '!' =>
          let (m, st2) := st1.matchChar '='
          scanRun fuel (st2.addToken (if m then .bangEqual else .bang)) .scanLoop
        | '=' =>
          let (m, st2) := st1.matchChar '='
          scanRun fuel (st2.addToken (if m then .equalEqual else .equal)) .scanLoop
        | '<' =>
          let (m, st2) := st1.matchChar '='
          scanRun fuel (st2.addToken (if m then .lessEqual else .less)) .scanLoop
        | '>' =>
          let (m, st2) := st1.matchChar '='
          scanRun fuel (st2.addToken (if m then .greaterEqual else .greater)) .scanLoop
        | '/' =>
          let (m, st2) := st1.matchChar '/'
          if m then scanRun fuel st2 .commentLoop
          else scanRun fuel (st2.addToken .slash) .scanLoop
        | ' ' => scanRun fuel st1 .scanLoop
        | '\x0d' => scanRun fuel st1 .scanLoop
        | '\t' => scanRun fuel st1 .scanLoop
        | '\n' => scanRun fuel { st1 with line := st1.line + 1 } .scanLoop
        | '"' => scanRun fuel st1 .stringLoop
        | 'o' =>
          let (m, st2) := st1.matchChar 'r'
          if m then scanRun fuel (st2.addToken .orK) .scanLoop
          else scanRun fuel st2 .identLoop
        | other =>
          if other.isDigit then scanRun fuel st1 .numberInt
          else if other.isAlpha || other = '_' then scanRun fuel st1 .identLoop
          else
            scanRun fuel
              { st1 with errors := st1.errors ++ [(st1.line, "Unexpected character.")] }
              .scanLoop
    | .commentLoop =>
      if st.peek ≠ '\n' && !st.isAtEnd then
        scanRun fuel (st.advance).2 .commentLoop
      else scanRun fuel st .scanLoop
    | .stringLoop =>
      if st.peek ≠ '"' && !st.isAtEnd then
        let st1 := if st.peek = '\n' then { st with line := st.line + 1 } else st
        scanRun fuel (st1.advance).2 .stringLoop
      else if st.isAtEnd then
        scanRun fuel
          { st with errors := st.errors ++ [(st.line, "Unterminated string.")] }
          .scanLoop
      else
        let st1 := (st.advance).2
        let value := sliceStr st1.source (st1.start + 1) (st1.current - 1)
        scanRun fuel (st1.addTokenFull .stringT (.str value)) .scanLoop
    | .numberInt =>
      if st.peek.isDigit then scanRun fuel (st.advance).2 .numberInt
      else if st.peek = '.' && st.peekNext.isDigit then
        scanRun fuel (st.advance).2 .numberFrac
      else
        scanRun fuel
          (st.addTokenFull .number
            (.num (ratOfLexeme ((st.source.drop st.start).take (st.current - st.start)))))
          .scanLoop
    | .numberFrac =>
      if st.peek.isDigit then scanRun fuel (st.advance).2 .numberFrac
      else
        scanRun fuel
          (st.addTokenFull .number
            (.num (ratOfLexeme ((st.source.drop st.start).take (st.current - st.start)))))
          .scanLoop
    | .identLoop =>
      if st.peek.isAlphanum || st.peek = '_' then
        scanRun fuel (st.advance).2 .identLoop
      else
        let text := sliceStr st.source st.start st.current
        match keywordType text with
        | some tt => scanRun fuel (st.addToken tt) .scanLoop
        | none => scanRun fuel (st.addToken .identifier) .scanLoop

/-- `Scanner::scan_tokens` on a source string: run the scan loop, then
append the EOF token. -/
def scanTokens (fuel : Nat) (src : String) : SState :=
  let st := scanRun fuel ⟨src.toList, [], 0, 0, 1, []⟩ .scanLoop
  { st with tokens := st.tokens ++ [⟨.eof, "", .nil, st.line⟩] }

/-! ### Parser (parser.rs)

The token list is indexed by `current`; every diagnostic emitted through
`Parser::error` (which prints via `error::parser_error` before returning the
`ParseError`) is recorded in the state as the pair of the offending token
and the message. -/

/-- The parser's state (struct `Parser` plus the diagnostics channel). -/
structure PState where
  tokens : List Token
  current : Nat
  diags : List (Token × String)

/-- The EOF placeholder used for reads the source would `unwrap`; scanner
output always ends in an EOF token, so these defaults are never taken on
scanned input. -/
def eofDummy : Token := ⟨.eof, "", .nil, 0⟩

/-- `Parser::peek`. -/
def PState.peekT (st : PState) : Token :=
  (st.tokens.get? st.current).getD eofDummy

/-- `Parser::previous`. -/
def PState.prevT (st : PState) : Token :=
  (st.tokens.get? (st.current - 1)).getD eofDummy

/-- `Parser::is_at_end`. -/
def PState.atEnd (st : PState) : Bool := st.peekT.tokenType = .eof

/-- `Parser::check`. -/
def PState.checkT (st : PState) (tt : TokenType) : Bool :=
  if st.atEnd then false else st.peekT.tokenType = tt

/-- `Parser::advance`. -/
def PState.advanceT (st : PState) : Token × PState :=
  let st' := if st.atEnd then st else { st with current := st.current + 1 }
  (st'.prevT, st')

/-- `Parser::match_one_token`. -/
def PState.matchOne (st : PState) (tt : TokenType) : Bool × PState :=
  if st.checkT tt then (true, (st.advanceT).2) else (false, st)

/-- `Parser::match_token`, trying each type in order. -/
def PState.matchAny (st : PState) : List TokenType → Bool × PState
  | [] => (false, st)
  | tt :: rest =>
    if st.checkT tt then (true, (st.advanceT).2) else st.matchAny rest

/-- `Parser::error`: report the diagnostic and build the `ParseError`. -/
def PState.errorT (st : PState) (tok : Token) (msg : String) :
    LoxError × PState :=
  (.parseError msg, { st with diags := st.diags ++ [(tok, msg)] })

/-- `Parser::consume`. -/
def PState.consumeT (st : PState) (tt : TokenType) (msg : String) :
    Except LoxError Token × PState :=
  if st.checkT tt then
    let (t, st') := st.advanceT
    (.ok t, st')
  else
    let (e, st') := st.errorT st.peekT msg
    (.error e, st')

/-- A task of the fueled parser: one constructor per grammar procedure of
parser.rs, plus one per source `while` loop (carrying the loop's
accumulator). -/
inductive PTask
  | parseLoop (acc : List Stmt)
  | decl
  | funDecl (kind : String)
  | paramsLoop (params : List Token)
  | varDecl
  | stmtT
  | printStmt
  | exprStmt
  | ifStmt
  | whileStmt
  | forStmt
  | blockLoop (acc : List Stmt)
  | exprT
  | assignT
  | orT
  | orLoop (left : Expr)
  | andT
  | andLoop (left : Expr)
  | eqT
  | eqLoop (left : Expr)
  | cmpT
  | cmpLoop (left : Expr)
  | termT
  | termLoop (left : Expr)
  | factorT
  | factorLoop (left : Expr)
  | unaryT
  | callT
  | callLoop (e : Expr)
  | finishCall (callee : Expr)
  | argsLoop (callee : Expr) (args : List Expr)
  | primaryT
  | syncT
  | syncLoop

/-- Result of a parser task. -/
inductive PRes
  | stmts (ss : List Stmt)
  | stmt (s : Stmt)
  | expr (e : Expr)
  | toks (ts : List Token)
  | exprs (es : List Expr)
  | unit

/-- The fueled parser, a direct translation of parser.rs.  In particular
`parseLoop` models `Parser::parse`, whose `?` on `self.declaration()`
returns the first error to the caller, and `decl` models
`Parser::declaration`, which synchronizes and then still returns `Err`. -/
def prun : Nat → PState → PTask → Except LoxError PRes × PState
  | 0, st, _ => (.error .diverge, st)
  | Nat.succ fuel, st, task =>
    match task with
    | .parseLoop acc =>
      if st.atEnd then (.ok (.stmts acc), st)
      else
        match prun fuel st .decl with
        | (.ok (.stmt s), st1) => prun fuel st1 (.parseLoop (acc ++ [s]))
        | (.ok _, st1) => (.error .diverge, st1)
        | (.error e, st1) => (.error e, st1)
    | .decl =>
      let (mVar, st1) := st.matchOne .varK
      match (if mVar then prun fuel st1 .varDecl
             else
               let (mFun, st2) := st1.matchOne .funK
               if mFun then prun fuel st2 (.funDecl "function")
               else prun fuel st2 .stmtT) with
      | (.ok r, stO) => (.ok r, stO)
      | (.error e, stE) =>
        match prun fuel stE .syncT with
        | (_, stS) => (.error e, stS)
    | .funDecl kind =>
      match st.consumeT .identifier ("Expect " ++ kind ++ " name.") with
      | (.error e, st1) => (.error e, st1)
      | (.ok name, st1) =>
        match st1.consumeT .leftParen ("Expect '(' after " ++ kind ++ " name.") with
        | (.error e, st2) => (.error e, st2)
        | (.ok _, st2) =>
          match (if st2.checkT .rightParen then
                   ((.ok (.toks []), st2) : Except LoxError PRes × PState)
                 else
                   let st3 :=
                     if 255 ≤ ([] : List Token).length then
                       (st2.errorT st2.peekT "Can't have more than 255 arguments.").2
                     else st2
                   match st3.consumeT .identifier "Expect parameter name." with
                   | (.error e, st4) => (.error e, st4)
                   | (.ok p0, st4) => prun fuel st4 (.paramsLoop [p0])) with
          | (.ok (.toks params), st5) =>
            match st5.consumeT .rightParen "Expect ')' after parameters." with
            | (.error e, st6) => (.error e, st6)
            | (.ok _, st6) =>
              match st6.consumeT .leftBrace
                  ("Expect '\x7b' before " ++ kind ++ " body.") with
              | (.error e, st7) => (.error e, st7)
              | (.ok _, st7) =>
                match prun fuel st7 (.blockLoop []) with
                | (.ok (.stmts body), st8) =>
                  (.ok (.stmt (.funS name params body)), st8)
                | (.ok _, st8) => (.error .diverge, st8)
                | (.error e, st8) => (.error e, st8)
          | (.ok _, st5) => (.error .diverge, st5)
          | (.error e, st5) => (.error e, st5)
    | .paramsLoop params =>
      let (m, st1) := st.matchOne .comma
      if m then
        let st2 :=
          if 255 ≤ params.length then
            (st1.errorT st1.peekT "Can't have more than 255 arguments.").2
          else st1
        match st2.consumeT .identifier "Expect parameter name." with
        | (.error e, st3) => (.error e, st3)
        | (.ok p, st3) => prun fuel st3 (.paramsLoop (params ++ [p]))
      else (.ok (.toks params), st1)
    | .varDecl =>
      match st.consumeT .identifier "Expect variable name." with
      | (.error e, st1) => (.error e, st1)
      | (.ok name, st1) =>
        let (mEq, st2) := st1.matchOne .equal
        match (if mEq then prun fuel st2 .exprT
               else ((.ok (.expr (.lit .nil)), st2) :
                 Except LoxError PRes × PState)) with
        | (.ok (.expr init), st3) =>
          match st3.consumeT .semicolon "Expect ';' after variable declaration." with
          | (.error e, st4) => (.error e, st4)
          | (.ok _, st4) => (.ok (.stmt (.varS name init)), st4)
        | (.ok _, st3) => (.error .diverge, st3)
        | (.error e, st3) => (.error e, st3)
    | .stmtT =>
      let (mFor, st1) := st.matchOne .forK
      if mFor then prun fuel st1 .forStmt
      else
        let (mIf, st2) := st1.matchOne .ifK
        if mIf then prun fuel st2 .ifStmt
        else
          let (mPrint, st3) := st2.matchOne .printK
          if mPrint then prun fuel st3 .printStmt
          else
            let (mWhile, st4) := st3.matchOne .whileK
            if mWhile then prun fuel st4 .whileStmt
            else
              let (mBrace, st5) := st4.matchOne .leftBrace
              if mBrace then
                match prun fuel st5 (.blockLoop []) with
                | (.ok (.stmts ss), st6) => (.ok (.stmt (.block ss)), st6)
                | (.ok _, st6) => (.error .diverge, st6)
                | (.error e, st6) => (.error e, st6)
              else prun fuel st5 .exprStmt
    | .printStmt =>
      match prun fuel st .exprT with
      | (.ok (.expr v), st1) =>
        match st1.consumeT .semicolon "Expect ';' after value." with
        | (.error e, st2) => (.error e, st2)
        | (.ok _, st2) => (.ok (.stmt (.print v)), st2)
      | (.ok _, st1) => (.error .diverge, st1)
      | (.error e, st1) => (.error e, st1)
    | .exprStmt =>
      match prun fuel st .exprT with
      | (.ok (.expr v), st1) =>
        match st1.consumeT .semicolon "Expect ';' after expression." with
        | (.error e, st2) => (.error e, st2)
        | (.ok _, st2) => (.ok (.stmt (.expr v)), st2)
      | (.ok _, st1) => (.error .diverge, st1)
      | (.error e, st1) => (.error e, st1)
    | .ifStmt =>
      match st.consumeT .leftParen "Expect '(' after 'if'." with
      | (.error e, st1) => (.error e, st1)
      | (.ok _, st1) =>
        match prun fuel st1 .exprT with
        | (.ok (.expr cond), st2) =>
          match st2.consumeT .rightParen "Expect ')' after if condition." with
          | (.error e, st3) => (.error e, st3)
          | (.ok _, st3) =>
            match prun fuel st3 .stmtT with
            | (.ok (.stmt thenB), st4) =>
              let (mElse, st5) := st4.matchOne .elseK
              if mElse then
                match prun fuel st5 .stmtT with
                | (.ok (.stmt elseB), st6) =>
                  (.ok (.stmt (.ifS cond thenB (some elseB))), st6)
                | (.ok _, st6) => (.error .diverge, st6)
                | (.error e, st6) => (.error e, st6)
              else (.ok (.stmt (.ifS cond thenB none)), st5)
            | (.ok _, st4) => (.error .diverge, st4)
            | (.error e, st4) => (.error e, st4)
        | (.ok _, st2) => (.error .diverge, st2)
        | (.error e, st2) => (.error e, st2)
    | .whileStmt =>
      match st.consumeT .leftParen "Expect '(' after 'while'." with
      | (.error e, st1) => (.error e, st1)
      | (.ok _, st1) =>
        match prun fuel st1 .exprT with
        | (.ok (.expr cond), st2) =>
          match st2.consumeT .rightParen "Expect ')' after condition." with
          | (.error e, st3) => (.error e, st3)
          | (.ok _, st3) =>
            match prun fuel st3 .stmtT with
            | (.ok (.stmt body), st4) =>
              (.ok (.stmt (.whileS cond body)), st4)
            | (.ok _, st4) => (.error .diverge, st4)
            | (.error e, st4) => (.error e, st4)
        | (.ok _, st2) => (.error .diverge, st2)
        | (.error e, st2) => (.error e, st2)
    | .forStmt =>
      match st.consumeT .leftParen "Expect '(' after 'for'." with
      | (.error e, st1) => (.error e, st1)
      | (.ok _, st1) =>
        let (mSemi, st2) := st1.matchOne .semicolon
        match (if mSemi then ((.ok .unit, st2) : Except LoxError PRes × PState)
               else
                 let (mVar, st3) := st2.matchOne .varK
                 if mVar then prun fuel st3 .varDecl
                 else prun fuel st3 .exprStmt) with
        | (.error e, stI) => (.error e, stI)
        | (.ok initR, stI) =>
          match (if !stI.checkT .semicolon then prun fuel stI .exprT
                 else ((.ok (.expr (.lit (.bool true))), stI) :
                   Except LoxError PRes × PState)) with
          | (.ok (.expr cond), stC) =>
            match stC.consumeT .semicolon "Expect ';' after loop condition." with
            | (.error e, stC1) => (.error e, stC1)
            | (.ok _, stC1) =>
              match ((if !stC1.checkT .rightParen then
                        match prun fuel stC1 .exprT with
                        | (.ok (.expr inc), stN) => (.ok (.exprs [inc]), stN)
                        | (.ok _, stN) => (.error .diverge, stN)
                        | (.error e, stN) => (.error e, stN)
                      else (.ok (.exprs []), stC1)) :
                     Except LoxError PRes × PState) with
              | (.ok (.exprs incs), stN1) =>
                match stN1.consumeT .rightParen "Expect ')' after for clauses." with
                | (.error e, stN2) => (.error e, stN2)
                | (.ok _, stN2) =>
                  match prun fuel stN2 .stmtT with
                  | (.ok (.stmt body0), stB) =>
                    let body1 :=
                      match incs with
                      | [inc] => Stmt.block [body0, .expr inc]
                      | _ => body0
                    let body2 := Stmt.whileS cond body1
                    let body3 :=
                      match initR with
                      | .stmt initS => Stmt.block [initS, body2]
                      | _ => body2
                    (.ok (.stmt body3), stB)
                  | (.ok _, stB) => (.error .diverge, stB)
                  | (.error e, stB) => (.error e, stB)
              | (.ok _, stN1) => (.error .diverge, stN1)
              | (.error e, stN1) => (.error e, stN1)
          | (.ok _, stC) => (.error .diverge, stC)
          | (.error e, stC) => (.error e, stC)
    | .blockLoop acc =>
      if !st.checkT .rightBrace && !st.atEnd then
        match prun fuel st .decl with
        | (.ok (.stmt s), st1) => prun fuel st1 (.blockLoop (acc ++ [s]))
        | (.ok _, st1) => (.error .diverge, st1)
        | (.error e, st1) => (.error e, st1)
      else
        match st.consumeT .rightBrace "Expect '\x7d' after block." with
        | (.error e, st1) => (.error e, st1)
        | (.ok _, st1) => (.ok (.stmts acc), st1)
    | .exprT => prun fuel st .assignT
    | .assignT =>
      match prun fuel st .orT with
      | (.ok (.expr e1), st1) =>
        let (mEq, st2) := st1.matchOne .equal
        if mEq then
          let equals := st2.prevT
          match prun fuel st2 .assignT with
          | (.ok (.expr value), st3) =>
            match e1 with
            | .varE name => (.ok (.expr (.assign name value)), st3)
            | _ =>
              let (e, st4) := st3.errorT equals "Invalid assignment target."
              (.error e, st4)
          | (.ok _, st3) => (.error .diverge, st3)
          | (.error e, st3) => (.error e, st3)
        else (.ok (.expr e1), st2)
      | (.ok _, st1) => (.error .diverge, st1)
      | (.error e, st1) => (.error e, st1)
    | .orT =>
      match prun fuel st .andT with
      | (.ok (.expr e1), st1) => prun fuel st1 (.orLoop e1)
      | (.ok _, st1) => (.error .diverge, st1)
      | (.error e, st1) => (.error e, st1)
    | .orLoop left =>
      let (m, st1) := st.matchOne .orK
      if m then
        let op := st1.prevT
        match prun fuel st1 .andT with
        | (.ok (.expr right), st2) =>
          prun fuel st2 (.orLoop (.logic left op right))
        | (.ok _, st2) => (.error .diverge, st2)
        | (.error e, st2) => (.error e, st2)
      else (.ok (.expr left), st1)
    | .andT =>
      match prun fuel st .eqT with
      | (.ok (.expr e1), st1) => prun fuel st1 (.andLoop e1)
      | (.ok _, st1) => (.error .diverge, st1)
      | (.error e, st1) => (.error e, st1)
    | .andLoop left =>
      let (m, st1) := st.matchOne .andK
      if m then
        let op := st1.prevT
        match prun fuel st1 .eqT with
        | (.ok (.expr right), st2) =>
          prun fuel st2 (.andLoop (.logic left op right))
        | (.ok _, st2) => (.error .diverge, st2)
        | (.error e, st2) => (.error e, st2)
      else (.ok (.expr left), st1)
    | .eqT =>
      match prun fuel st .cmpT with
      | (.ok (.expr e1), st1) => prun fuel st1 (.eqLoop e1)
      | (.ok _, st1) => (.error .diverge, st1)
      | (.error e, st1) => (.error e, st1)
    | .eqLoop left =>
      let (m, st1) := st.matchAny [.bangEqual, .equalEqual]
      if m then
        let op := st1.prevT
        match prun fuel st1 .cmpT with
        | (.ok (.expr right), st2) =>
          prun fuel st2 (.eqLoop (.binary left op right))
        | (.ok _, st2) => (.error .diverge, st2)
        | (.error e, st2) => (.error e, st2)
      else (.ok (.expr left), st1)
    | .cmpT =>
      match prun fuel st .termT with
      | (.ok (.expr e1), st1) => prun fuel st1 (.cmpLoop e1)
      | (.ok _, st1) => (.error .diverge, st1)
      | (.error e, st1) => (.error e, st1)
    | .cmpLoop left =>
      let (m, st1) := st.matchAny [.greater, .greaterEqual, .less, .lessEqual]
      if m then
        let op := st1.prevT
        match prun fuel st1 .termT with
        | (.ok (.expr right), st2) =>
          prun fuel st2 (.cmpLoop (.binary left op right))
        | (.ok _, st2) => (.error .diverge, st2)
        | (.error e, st2) => (.error e, st2)
      else (.ok (.expr left), st1)
    | .termT =>
      match prun fuel st .factorT with
      | (.ok (.expr e1), st1) => prun fuel st1 (.termLoop e1)
      | (.ok _, st1) => (.error .diverge, st1)
      | (.error e, st1) => (.error e, st1)
    | .termLoop left =>
      let (m, st1) := st.matchAny [.minus, .plus]
      if m then
        let op := st1.prevT
        match prun fuel st1 .factorT with
        | (.ok (.expr right), st2) =>
          prun fuel st2 (.termLoop (.binary left op right))
        | (.ok _, st2) => (.error .diverge, st2)
        | (.error e, st2) => (.error e, st2)
      else (.ok (.expr left), st1)
    | .factorT =>
      match prun fuel st .unaryT with
      | (.ok (.expr e1), st1) => prun fuel st1 (.factorLoop e1)
      | (.ok _, st1) => (.error .diverge, st1)
      | (.error e, st1) => (.error e, st1)
    | .factorLoop left =>
      let (m, st1) := st.matchAny [.slash, .star]
      if m then
        let op := st1.prevT
        match prun fuel st1 .unaryT with
        | (.ok (.expr right), st2) =>
          prun fuel st2 (.factorLoop (.binary left op right))
        | (.ok _, st2) => (.error .diverge, st2)
        | (.error e, st2) => (.error e, st2)
      else (.ok (.expr left), st1)
    | .unaryT =>
      let (m, st1) := st.matchAny [.bang, .minus]
      if m then
        let op := st1.prevT
        match prun fuel st1 .unaryT with
        | (.ok (.expr right), st2) => (.ok (.expr (.unary op right)), st2)
        | (.ok _, st2) => (.error .diverge, st2)
        | (.error e, st2) => (.error e, st2)
      else prun fuel st1 .callT
    | .callT =>
      match prun fuel st .primaryT with
      | (.ok (.expr e1), st1) => prun fuel st1 (.callLoop e1)
      | (.ok _, st1) => (.error .diverge, st1)
      | (.error e, st1) => (.error e, st1)
    | .callLoop e1 =>
      let (m, st1) := st.matchOne .leftParen
      if m then
        match prun fuel st1 (.finishCall e1) with
        | (.ok (.expr e2), st2) => prun fuel st2 (.callLoop e2)
        | (.ok _, st2) => (.error .diverge, st2)
        | (.error e, st2) => (.error e, st2)
      else (.ok (.expr e1), st1)
    | .finishCall callee =>
      match ((if !st.checkT .rightParen then
                match prun fuel st .exprT with
                | (.ok (.expr a0), st1) => prun fuel st1 (.argsLoop callee [a0])
                | (.ok _, st1) => (.error .diverge, st1)
                | (.error e, st1) => (.error e, st1)
              else (.ok (.exprs []), st)) :
             Except LoxError PRes × PState) with
      | (.ok (.exprs args), st2) =>
        match st2.consumeT .rightParen "Expect ')' after arguments." with
        | (.error e, st3) => (.error e, st3)
        | (.ok paren, st3) => (.ok (.expr (.call callee paren args)), st3)
      | (.ok _, st2) => (.error .diverge, st2)
      | (.error e, st2) => (.error e, st2)
    | .argsLoop callee args =>
      let (m, st1) := st.matchOne .comma
      if m then
        let st2 :=
          if 255 ≤ args.length then
            (st1.errorT st1.peekT "Can't have more than 255 arguments.").2
          else st1
        match prun fuel st2 .exprT with
        | (.ok (.expr a), st3) => prun fuel st3 (.argsLoop callee (args ++ [a]))
        | (.ok _, st3) => (.error .diverge, st3)
        | (.error e, st3) => (.error e, st3)
      else (.ok (.exprs args), st1)
    | .primaryT =>
      let (mFalse, st1) := st.matchOne .falseK
      if mFalse then (.ok (.expr (.lit (.bool false))), st1)
      else
        let (mTrue, st2) := st1.matchOne .trueK
        if mTrue then (.ok (.expr (.lit (.bool true))), st2)
        else
          let (mNil, st3) := st2.matchOne .nilK
          if mNil then (.ok (.expr (.lit .nil)), st3)
          else
            let (mStr, st4) := st3.matchOne .stringT
            if mStr then (.ok (.expr (.lit st4.prevT.literal)), st4)
            else
              let (mNum, st5) := st4.matchOne .number
              if mNum then (.ok (.expr (.lit st5.prevT.literal)), st5)
              else
                let (mId, st6) := st5.matchOne .identifier
                if mId then (.ok (.expr (.varE st6.prevT)), st6)
                else
                  let (mParen, st7) := st6.matchOne .leftParen
                  if mParen then
                    match prun fuel st7 .exprT with
                    | (.ok (.expr e1), st8) =>
                      match st8.consumeT .rightParen
                          "Expect ')' after expression." with
                      | (.error e, st9) => (.error e, st9)
                      | (.ok _, st9) => (.ok (.expr (.group e1)), st9)
                    | (.ok _, st8) => (.error .diverge, st8)
                    | (.error e, st8) => (.error e, st8)
                  else
                    let (e, st8) := st7.errorT st7.peekT "Expect expression."
                    (.error e, st8)
    | .syncT => prun fuel (st.advanceT).2 .syncLoop
    | .syncLoop =>
      if st.atEnd then (.ok .unit, st)
      else if st.prevT.tokenType = .semicolon then (.ok .unit, st)
      else
        match st.peekT.tokenType with
        | .classK => (.ok .unit, st)
        | .funK => (.ok .unit, st)
        | .varK => (.ok .unit, st)
        | .forK => (.ok .unit, st)
        | .ifK => (.ok .unit, st)
        | .whileK => (.ok .unit, st)
        | .printK => (.ok .unit, st)
        | .returnK => (.ok .unit, st)
        | _ => prun fuel (st.advanceT).2 .syncLoop

/-- `Parser::new` followed by `Parser::parse` on a token list. -/
def parseTokens (fuel : Nat) (toks : List Token) :
    Except LoxError PRes × PState :=
  prun fuel ⟨toks, 0, []⟩ (.parseLoop [])

/-! ### Bit-level model of `Literal` equality and hashing (token.rs)

`Literal::Num` carries an `f32`.  Its hand-written `PartialEq` compares the
payloads with `f32::eq` (IEEE-754 numeric equality), while its `Hash` feeds
`f32::to_bits` to the hasher.  `F32` models a single-precision float by its
bit pattern, and `f32Eq` models IEEE-754 numeric equality on it. -/

/-- An `f32` as its 32-bit pattern. -/
structure F32 where
  bits : Nat
deriving DecidableEq

/-- The sign bit. -/
def F32.sign (f : F32) : Nat := f.bits / 2 ^ 31 % 2

/-- The 8 exponent bits. -/
def F32.expBits (f : F32) : Nat := f.bits / 2 ^ 23 % 2 ^ 8

/-- The 23 mantissa bits. -/
def F32.mant (f : F32) : Nat := f.bits % 2 ^ 23

/-- NaN: exponent all ones, nonzero mantissa. -/
def F32.isNaN (f : F32) : Bool := f.expBits = 255 && f.mant ≠ 0

/-- The IEEE-754 denotation of a bit pattern: NaN, a signed infinity, or a
finite value.  A finite value is recorded as the integer `value * 2 ^ 149`
(every finite single-precision value times `2 ^ 149` is an integer, and the
fixed scaling preserves and reflects equality of the denoted reals; both
zeros decode to `fin 0`). -/
inductive FVal
  | nan
  | inf (neg : Bool)
  | fin (z : ℤ)
deriving DecidableEq

/-- Decode a bit pattern: subnormals (`exp = 0`) denote
`±mant * 2 ^ (-149)`, normals `±(2 ^ 23 + mant) * 2 ^ (exp - 150)`; scaled
by `2 ^ 149` these are `±mant` and `±(2 ^ 23 + mant) * 2 ^ (exp - 1)`. -/
def F32.val (f : F32) : FVal :=
  if f.expBits = 255 then
    if f.mant = 0 then .inf (f.sign = 1) else .nan
  else
    .fin ((if f.sign = 1 then (-1 : ℤ) else 1) *
      (if f.expBits = 0 then (f.mant : ℤ)
       else ((2 ^ 23 + f.mant : ℕ) : ℤ) * 2 ^ (f.expBits - 1)))

/-- IEEE-754 numeric equality (`f32::eq` / `==` on `f32`): false whenever
either side is NaN; infinities compare by sign; finite values compare by
their denoted value, so `+0.0 == -0.0`. -/
def f32Eq (a b : F32) : Bool :=
  match a.val, b.val with
  | .nan, _ => false
  | _, .nan => false
  | .inf n1, .inf n2 => n1 == n2
  | .fin p, .fin q => p == q
  | _, _ => false

/-- Model of `Literal` (token.rs) with a bit-level `Num` payload. -/
inductive LiteralF
  | str (s : String)
  | num (f : F32)
  | bool (b : Bool)
  | nil
deriving DecidableEq

/-- The hand-written `PartialEq for Literal` (token.rs): same-variant
payload comparison — `f32::eq` on numbers — and false across variants. -/
def literalFEq (a b : LiteralF) : Bool :=
  match a, b with
  | .bool x, .bool y => x == y
  | .str x, .str y => x == y
  | .num x, .num y => f32Eq x y
  | .nil, .nil => true
  | _, _ => false

/-- The data a `Literal` feeds the hasher in `Hash for Literal` (token.rs):
strings hash their contents, numbers hash `to_bits()`, booleans hash the
boolean, and `Nil` hashes the empty string. -/
inductive HashFeed
  | ofNat (n : Nat)
  | ofStr (s : String)
  | ofBool (b : Bool)
deriving DecidableEq

/-- `Hash for Literal`, as the exact data fed to the hasher. -/
def literalFHashFeed : LiteralF → HashFeed
  | .str s => .ofStr s
  | .num f => .ofNat f.bits
  | .bool b => .ofBool b
  | .nil => .ofStr ""

/-! ### Specification-side descriptions and concrete inputs for the claims -/

/-- The state at entry to a user function's body, as the spec describes it:
a fresh frame whose enclosing environment is the function's captured
closure, binding each parameter to the corresponding argument. -/
def pushCallFrame (st : IState) (f : LoxFunction) (args : List Object) :
    IState :=
  { st with heap := st.heap ++ [⟨some f.closure, bindParams f.params args⟩] }

/-- How a function call turns its body's outcome into the call's result, as
the spec describes it: normal completion yields `Nil`, a return signal is
caught and yields the carried value, any other error propagates. -/
def handleRet (r : Except LoxError RRes × IState) :
    Except LoxError RRes × IState :=
  match r with
  | (.ok _, st) => (.ok (.obj (.lit .nil)), st)
  | (.error (.ret o), st) => (.ok (.obj o), st)
  | (.error e, st) => (.error e, st)

/-- An `if` with a truthy condition and an `else` branch, printing 1 in the
then branch and 2 in the else branch. -/
def ifBothProg : Stmt :=
  .ifS (.lit (.bool true)) (.print (.lit (.num 1))) (some (.print (.lit (.num 2))))

/-- An `==` operator token. -/
def eqEqTok : Token := ⟨.equalEqual, "==", .nil, 1⟩

/-- A `!=` operator token. -/
def bangEqTok : Token := ⟨.bangEqual, "!=", .nil, 1⟩

/-- A `-` operator token. -/
def minusOpTok : Token := ⟨.minus, "-", .nil, 1⟩

/-- A `<` operator token. -/
def lessOpTok : Token := ⟨.less, "<", .nil, 1⟩

/-- A `+` operator token. -/
def plusOpTok : Token := ⟨.plus, "+", .nil, 1⟩

/-- Identifier token `b` (declared in the outer block of `assignProg`). -/
def bTok : Token := ⟨.identifier, "b", .nil, 1⟩

/-- Identifier token `a` (declared in the inner block of `assignProg`). -/
def aTok : Token := ⟨.identifier, "a", .nil, 2⟩

/-- `{ var b = 1; { var a = 2; a = b; } }`: the assignment's target `a` is
declared in the innermost scope (depth 0) while its value reads `b` from the
enclosing scope (depth 1). -/
def assignProg : List Stmt :=
  [.block [.varS bTok (.lit (.num 1)),
    .block [.varS aTok (.lit (.num 2)), .expr (.assign aTok (.varE bTok))]]]

/-- The same program with the assignment replaced by a bare read of `b`,
isolating the entry the read itself records. -/
def readOnlyProg : List Stmt :=
  [.block [.varS bTok (.lit (.num 1)),
    .block [.varS aTok (.lit (.num 2)), .expr (.varE bTok)]]]

/-- `{ { var a = a; } }`: a self-reading initialiser at nesting depth two. -/
def selfInitDeep : List Stmt := [.block [.block [.varS aTok (.varE aTok)]]]

/-- `{ var a = a; }`: a self-reading initialiser at nesting depth one. -/
def selfInitShallow : List Stmt := [.block [.varS aTok (.varE aTok)]]

/-- Token stream of `+; +;` — two statements, each with a syntax error at
its first token (lines 1 and 2). -/
def twoBadStmts : List Token :=
  [⟨.plus, "+", .nil, 1⟩, ⟨.semicolon, ";", .nil, 1⟩,
   ⟨.plus, "+", .nil, 2⟩, ⟨.semicolon, ";", .nil, 2⟩, ⟨.eof, "", .nil, 2⟩]

/-- Token stream of the second erroneous statement of `twoBadStmts` alone. -/
def secondBadStmt : List Token :=
  [⟨.plus, "+", .nil, 2⟩, ⟨.semicolon, ";", .nil, 2⟩, ⟨.eof, "", .nil, 2⟩]

/-- Identifier token `x`, a parameter name. -/
def xTok : Token := ⟨.identifier, "x", .nil, 1⟩

/-- Identifier token `f`, a function name. -/
def fTok : Token := ⟨.identifier, "f", .nil, 1⟩

/-- A `return` keyword token. -/
def retTok : Token := ⟨.returnK, "return", .nil, 1⟩

/-- A one-parameter function whose body is `return 5;`, closing over the
global environment. -/
def funcF0 : LoxFunction := ⟨fTok, [xTok], [.ret retTok (.lit (.num 5))], 0⟩

/-- The bit pattern of a quiet NaN. -/
def qnanF : F32 := ⟨0x7FC00000⟩

/-- The bit pattern of `+0.0`. -/
def posZeroF : F32 := ⟨0⟩

/-- The bit pattern of `-0.0`. -/
def negZeroF : F32 := ⟨0x80000000⟩

end RJLox

/-! ## Theorems -/

namespace RJLox

/-- Helper: `execute_block` restores the previously active environment on
every exit path — the saved `previous_env` is written back both on normal
completion and on any error (including the return signal). -/
theorem run_execBlock_env (fuel : Nat) (st : IState) (ss : List Stmt)
    (a : Addr) : (run fuel st (.execBlock ss a)).2.env = st.env := by
  cases fuel with
  | zero => rfl
  | succ n =>
    simp only [run]
    rcases h : run n { st with env := a } (.execSeq ss) with ⟨r, st1⟩
    cases r <;> rfl

/-- C1 (code_bug): the claim says that with an `else` branch present exactly
one branch runs; but on `if (true) print 1; else print 2;` the interpreter
prints both 1 and 2 — `visit_if_stmt` executes the `else` branch
unconditionally after a truthy `then`.  (With a falsy condition only the
else branch runs, as the last conjunct shows.) -/
theorem c1_if_runs_both_branches :
    (run 9 initState (.exec ifBothProg)).1 = .ok .unit
    ∧ (run 9 initState (.exec ifBothProg)).2.output
        = [.lit (.num 1), .lit (.num 2)]
    ∧ (run 9 initState (.exec (.ifS (.lit (.bool false))
        (.print (.lit (.num 1))) (some (.print (.lit (.num 2))))))).2.output
        = [.lit (.num 2)] :=
  ⟨rfl, rfl, rfl⟩

/-- C2 (code_bug): the claim says `==`/`!=` evaluate without error on any
pair of runtime values; but `visit_binary_expr` only handles two numbers or
two strings, so `nil == nil`, `true == true` and `1 == "a"` (and `nil !=
nil`) all fail with RuntimeError "Operands must be numbers." instead of
producing a boolean. -/
theorem c2_equality_across_variants_errors :
    (run 3 initState (.eval (.binary (.lit .nil) eqEqTok (.lit .nil)))).1
      = .error (.runtimeError eqEqTok "Operands must be numbers.")
    ∧ (run 3 initState (.eval (.binary (.lit (.bool true)) eqEqTok
        (.lit (.bool true))))).1
      = .error (.runtimeError eqEqTok "Operands must be numbers.")
    ∧ (run 3 initState (.eval (.binary (.lit (.num 1)) eqEqTok
        (.lit (.str "a"))))).1
      = .error (.runtimeError eqEqTok "Operands must be numbers.")
    ∧ (run 3 initState (.eval (.binary (.lit .nil) bangEqTok (.lit .nil)))).1
      = .error (.runtimeError bangEqTok "Operands must be numbers.")
    ∧ (run 3 initState (.eval (.binary (.lit (.num 1)) eqEqTok
        (.lit (.num 1))))).1 = .ok (.obj (.lit (.bool true)))
    ∧ (run 3 initState (.eval (.binary (.lit (.str "a")) eqEqTok
        (.lit (.str "b"))))).1 = .ok (.obj (.lit (.bool false))) :=
  ⟨rfl, rfl, rfl, rfl, rfl, rfl⟩

/-- C3 (code_bug): the claim says recording a resolution entry never changes
the recorded depth of another reference; but resolving `a = b` keys the
target's depth under the `value` expression `b`, so in
`{ var b = 1; { var a = 2; a = b; } }` the entry for the read of `b` is
first 1 (its true depth, per `readOnlyProg`) and is then overwritten to 0
(the depth of `a`), leaving the table pointing the read of `b` at the scope
of `a`. -/
theorem c3_assign_resolution_overwrites_value_entry :
    (resolveProgram 20 assignProg).1 = .ok ()
    ∧ (resolveProgram 20 assignProg).2.locals = [(.varE bTok, 0)]
    ∧ (resolveProgram 20 readOnlyProg).2.locals = [(.varE bTok, 1)] :=
  ⟨rfl, rfl, rfl⟩

/-- C4 (code_bug): the claim says `-`, `<` (and the other arithmetic and
comparison operators) fail with RuntimeError "Operands must be numbers."
on every operand pair that is not two numbers, including two strings, and
never yield Nil; but on two strings the interpreter's string match arm falls
through to `Ok(Nil)`: `"a" - "b"` and `"a" < "b"` evaluate to Nil without
error, while a mixed pair such as `1 - "b"` does error, and `+` on a mixed
pair errors with its own message, as the claim states. -/
theorem c4_string_operands_yield_nil :
    (run 3 initState (.eval (.binary (.lit (.str "a")) minusOpTok
        (.lit (.str "b"))))).1 = .ok (.obj (.lit .nil))
    ∧ (run 3 initState (.eval (.binary (.lit (.str "a")) lessOpTok
        (.lit (.str "b"))))).1 = .ok (.obj (.lit .nil))
    ∧ (run 3 initState (.eval (.binary (.lit (.num 1)) minusOpTok
        (.lit (.str "b"))))).1
      = .error (.runtimeError minusOpTok "Operands must be numbers.")
    ∧ (run 3 initState (.eval (.binary (.lit (.num 1)) plusOpTok
        (.lit (.str "b"))))).1
      = .error (.runtimeError plusOpTok
          "Operands must be two numbers or two strings.") :=
  ⟨rfl, rfl, rfl, rfl⟩

/-- C5 (code_bug): the claim says a ParseError in one statement does not
suppress diagnostics for later statements; but `Parser::parse` propagates
the first error with `?`, so on `+; +;` (two erroneous statements) the run
stops after synchronizing past the first statement (`current = 2`), with
exactly one diagnostic — although the second statement alone would produce
its own diagnostic, as the last conjunct shows. -/
theorem c5_parse_stops_at_first_error :
    (parseTokens 99 twoBadStmts).1 = .error (.parseError "Expect expression.")
    ∧ (parseTokens 99 twoBadStmts).2.diags
        = [(⟨.plus, "+", .nil, 1⟩, "Expect expression.")]
    ∧ (parseTokens 99 twoBadStmts).2.current = 2
    ∧ (parseTokens 99 secondBadStmt).2.diags
        = [(⟨.plus, "+", .nil, 2⟩, "Expect expression.")] :=
  ⟨rfl, rfl, rfl, rfl⟩

/-- C6 (code_bug): the claim says the own-initialiser check consults the
innermost scope, rejecting `var a = a;` at any nesting depth; but
`visit_var_expr` peeks the FIRST scope of the stack (the outermost local
scope), so `{ { var a = a; } }` resolves without error (recording depth 0
for the self-read), while the depth-one `{ var a = a; }` is rejected. -/
theorem c6_initializer_check_reads_outermost_scope :
    (resolveProgram 20 selfInitDeep).1 = .ok ()
    ∧ (resolveProgram 20 selfInitDeep).2.locals = [(.varE aTok, 0)]
    ∧ (resolveProgram 20 selfInitShallow).1
        = .error (.resolveError aTok
            "Cannot read local variable in its own initializer.") :=
  ⟨rfl, rfl, rfl⟩

/-- C7 (confirmed): after executing any block (`execute_block`, or a block
statement, which allocates its frame and runs `execute_block`) or any
function call — whether it completes normally, fails with an error, or is
exited by a return signal — the interpreter's active environment equals the
environment that was active at entry. -/
theorem c7_env_restored_on_block_and_call_exit
    (fuel : Nat) (st : IState) (ss : List Stmt) (a : Addr)
    (c : Callable) (args : List Object) :
    (run fuel st (.execBlock ss a)).2.env = st.env
    ∧ (run fuel st (.exec (.block ss))).2.env = st.env
    ∧ (run fuel st (.callC c args)).2.env = st.env := by
  refine ⟨run_execBlock_env fuel st ss a, ?_, ?_⟩
  · cases fuel with
    | zero => rfl
    | succ n =>
      simp only [run]
      exact run_execBlock_env n _ ss _
  · cases fuel with
    | zero => rfl
    | succ n =>
      cases c with
      | clock => rfl
      | func f =>
        simp only [run]
        rcases h : run n
            { st with heap := st.heap ++ [⟨some f.closure, bindParams f.params args⟩] }
            (.execBlock f.body st.heap.length) with ⟨r, st1⟩
        have henv : st1.env = st.env := by
          have hb := run_execBlock_env n
            { st with heap := st.heap ++ [⟨some f.closure, bindParams f.params args⟩] }
            f.body st.heap.length
          rw [h] at hb
          exact hb
        cases r with
        | ok v => exact henv
        | error e => cases e <;> exact henv

/-- C8 (confirmed): calling a user function runs its body as a block in a
fresh frame enclosed by the captured closure with the parameters bound to
the arguments (`pushCallFrame`), and turns the body's outcome into the
call's result per `handleRet`: Nil on normal completion, the carried value
when a return signal is caught; the return signal never escapes the call;
and evaluating a `fun` declaration captures as closure the environment
active at the declaration. -/
theorem c8_call_semantics (fuel : Nat) (st : IState) (f : LoxFunction)
    (args : List Object) (_arity : args.length = f.params.length) :
    run (fuel + 1) st (.callC (.func f) args)
      = handleRet (run fuel (pushCallFrame st f args)
          (.execBlock f.body st.heap.length))
    ∧ (∀ v, (run (fuel + 1) st (.callC (.func f) args)).1 ≠ .error (.ret v))
    ∧ (∀ name params body,
        run (fuel + 1) st (.exec (.funS name params body))
          = (.ok .unit,
             { st with
               heap := heapDefine st.heap st.env name.lexeme
                 (.callable (.func ⟨name, params, body, st.env⟩)) })) := by
  have heq : run (fuel + 1) st (.callC (.func f) args)
      = handleRet (run fuel (pushCallFrame st f args)
          (.execBlock f.body st.heap.length)) := by
    simp only [run, pushCallFrame, handleRet]
  refine ⟨heq, ?_, ?_⟩
  · intro v
    rw [heq]
    rcases run fuel (pushCallFrame st f args)
        (.execBlock f.body st.heap.length) with ⟨r, st1⟩
    cases r with
    | ok u => simp [handleRet]
    | error e => cases e <;> simp [handleRet]
  · intro name params body
    rfl

/-- Witness for C8: a call of `fun f(x) { return 5; }` with one argument
satisfies the arity hypothesis, follows the described shape, and yields the
returned value 5. -/
theorem c8_call_semantics_witness :
    ([Object.lit (.num 1)].length = funcF0.params.length)
    ∧ run 5 initState (.callC (.func funcF0) [Object.lit (.num 1)])
        = handleRet (run 4 (pushCallFrame initState funcF0 [Object.lit (.num 1)])
            (.execBlock funcF0.body 1))
    ∧ (run 5 initState (.callC (.func funcF0) [Object.lit (.num 1)])).1
        = .ok (.obj (.lit (.num 5))) :=
  ⟨rfl,
   (c8_call_semantics 4 initState funcF0 [Object.lit (.num 1)] rfl).1,
   rfl⟩

/-- C9 (code_bug): the claim says a maximal run of identifier characters
that is not a keyword is scanned as a single IDENTIFIER token whose lexeme
is the exact source substring, including identifiers beginning with "or";
but `scan_token` has a special arm for `'o'` that emits an OR token as soon
as the next character is `'r'`, so "orange" scans as OR("or") followed by
IDENTIFIER("ange"), while an identifier not starting with "or", such as
"apple" (or "oak"), scans as a single token. -/
theorem c9_scanner_splits_or_prefixed_identifier :
    (scanTokens 99 "orange").tokens
      = [⟨.orK, "or", .nil, 1⟩, ⟨.identifier, "ange", .nil, 1⟩,
         ⟨.eof, "", .nil, 1⟩]
    ∧ (scanTokens 99 "apple").tokens
      = [⟨.identifier, "apple", .nil, 1⟩, ⟨.eof, "", .nil, 1⟩]
    ∧ (scanTokens 99 "oak").tokens
      = [⟨.identifier, "oak", .nil, 1⟩, ⟨.eof, "", .nil, 1⟩] :=
  ⟨rfl, rfl, rfl⟩

/-- Helper: a bit pattern denotes NaN exactly when `is_nan` holds of it. -/
theorem f32_val_nan_iff (a : F32) : a.val = FVal.nan ↔ a.isNaN = true := by
  by_cases h1 : a.expBits = 255 <;> by_cases h2 : a.mant = 0 <;>
    simp [F32.val, F32.isNaN, h1, h2]

/-- Counterexample to C10: `Literal` equality on `Num` does not use the bit
pattern — a NaN payload is not equal to itself although the bit patterns
are identical, and `+0.0` equals `-0.0` although their bit patterns (and
hence the data fed to the hasher) differ. -/
theorem c10_num_eq_bitpattern_counterexample :
    literalFEq (.num qnanF) (.num qnanF) = false
    ∧ qnanF.bits = qnanF.bits
    ∧ literalFEq (.num posZeroF) (.num negZeroF) = true
    ∧ literalFHashFeed (.num posZeroF) ≠ literalFHashFeed (.num negZeroF) :=
  ⟨by decide, rfl, by decide, by decide⟩

/-- C10 (corrected): hashing on `Num` uses the IEEE-754 bit pattern of the
payload (`to_bits`), and identical bit patterns give identical hash data;
but equality uses IEEE-754 numeric equality (`f32::eq`), under which a NaN
payload is not equal to itself — so `Literal` equality is not reflexive on
NaN, and equal `Num` values can have different hashes (`+0.0` vs `-0.0`,
per the counterexample). -/
theorem c10_num_eq_ieee_hash_bits (a b : F32) :
    literalFEq (.num a) (.num b) = f32Eq a b
    ∧ literalFHashFeed (.num a) = .ofNat a.bits
    ∧ (a.isNaN = true → literalFEq (.num a) (.num a) = false)
    ∧ (a.isNaN = false → literalFEq (.num a) (.num a) = true)
    ∧ (a.bits = b.bits → literalFHashFeed (.num a) = literalFHashFeed (.num b)) := by
  refine ⟨rfl, rfl, ?_, ?_, ?_⟩
  · intro hn
    show f32Eq a a = false
    have hv := (f32_val_nan_iff a).mpr hn
    simp [f32Eq, hv]
  · intro hn
    show f32Eq a a = true
    have hv : a.val ≠ FVal.nan := by
      intro hc
      have := (f32_val_nan_iff a).mp hc
      rw [hn] at this
      exact absurd this (by simp)
    unfold f32Eq
    cases hval : a.val with
    | nan => exact absurd hval hv
    | inf n => simp
    | fin z => simp
  · intro hb
    have : a = b := by
      cases a
      cases b
      simpa using hb
    rw [this]

/-- Witness for C10: the quiet-NaN bit pattern satisfies the NaN hypothesis,
and the theorem yields that the `Literal` holding it is not equal to
itself. -/
theorem c10_num_eq_ieee_hash_bits_witness :
    (F32.isNaN qnanF = true)
    ∧ literalFEq (.num qnanF) (.num qnanF) = false :=
  ⟨by decide, (c10_num_eq_ieee_hash_bits qnanF qnanF).2.2.1 (by decide)⟩

end RJLox
